import Mathlib

/-!
Verification of `quantdsl/interfaces/calcandplot.py` (class `CalcAndPlot`).

The development shallowly embeds the three cores of the module:

* the progress telemetry tracker (`count_result_values_computed`, the sliding
  window `self.times`, the counter `self.result_values_computed_count`);
* the completion wait loop in `run`
  (`while self.call_result_id not in app.call_result_repo: if
  self.is_evaluation_ready.wait(timeout=2): break`);
* the sensitivity aggregator `read_results` together with the
  subscription lifecycle of `run`.

Timestamps and all numeric sample values are modelled as rationals; the
floating-point square root used by `math.sqrt` and `numpy.std` is abstracted
as an arbitrary function parameter `sq : ℚ → ℚ`, since every claim under
study is invariant under the choice of square root.  Per-path sample vectors
(numpy arrays of length `path_count`) are modelled as `Fin n → ℚ`.
-/

namespace CalcAndPlot

/-! ## Progress telemetry tracker

State of the handler object: `self.times` (a deque of timestamps, head =
oldest), `self.result_values_computed_count`, and `self.total_cost`
(sum of the call costs, a natural number). -/

structure TrackerState where
  times : List ℚ
  count : ℕ
  totalCost : ℕ
deriving DecidableEq

/-- The `{percent, rate, eta}` values written by one invocation of
`count_result_values_computed`. -/
structure Snapshot where
  percent : ℚ
  rate : ℚ
  eta : ℚ
deriving DecidableEq

/-- The two `ZeroDivisionError` sites of `count_result_values_computed`:
`rate = len(self.times) / duration.total_seconds()` with a zero duration, and
`(100.0 * self.result_values_computed_count) / self.total_cost` with
`total_cost == 0`. -/
inductive TrackerError
  | zeroDuration
  | zeroTotalCost
deriving DecidableEq

/-- Lines 108-110: `self.times.append(datetime.datetime.now())`; then
`if len(self.times) > 0.5 * self.total_cost: self.times.popleft()`. -/
def updateTimes (st : TrackerState) (now : ℚ) : List ℚ :=
  let t1 := st.times ++ [now]
  if ((t1.length : ℚ)) > (st.totalCost : ℚ) / 2 then t1.tail else t1

/-- Lines 107-128 of `calcandplot.py`: the `ResultValueComputed` handler.
Returns the mutated state together with the reported snapshot, or the
`ZeroDivisionError` raised.  The state mutations that have already happened
when an error is raised are kept: the window update precedes everything, and
the count increment (line 118) precedes the percent division (line 121). -/
def countResultValuesComputed (st : TrackerState) (now : ℚ) :
    TrackerState × Except TrackerError Snapshot :=
  let t2 := updateTimes st now
  if 1 < t2.length then
    let duration := t2.getLastD 0 - t2.headD 0
    if duration = 0 then
      (⟨t2, st.count, st.totalCost⟩, .error .zeroDuration)
    else
      let rate := (t2.length : ℚ) / duration
      let eta := ((st.totalCost : ℚ) - (st.count : ℚ)) / rate
      let count' := st.count + 1
      if st.totalCost = 0 then
        (⟨t2, count', st.totalCost⟩, .error .zeroTotalCost)
      else
        (⟨t2, count', st.totalCost⟩,
          .ok ⟨100 * (count' : ℚ) / (st.totalCost : ℚ), rate, eta⟩)
  else
    let rate : ℚ := 1 / 1000
    let eta := ((st.totalCost : ℚ) - (st.count : ℚ)) / rate
    let count' := st.count + 1
    if st.totalCost = 0 then
      (⟨t2, count', st.totalCost⟩, .error .zeroTotalCost)
    else
      (⟨t2, count', st.totalCost⟩,
        .ok ⟨100 * (count' : ℚ) / (st.totalCost : ℚ), rate, eta⟩)

/-- Repeated delivery of `ResultValueComputed` events to a fresh handler:
`self.times = collections.deque()` and a zero count, then `n` invocations of
the handler, the `i`-th at timestamp `ts i`. -/
def iterateHandler (tc : ℕ) (ts : ℕ → ℚ) : ℕ → TrackerState
  | 0 => ⟨[], 0, tc⟩
  | n + 1 => (countResultValuesComputed (iterateHandler tc ts n) (ts n)).1

/-! ## Completion wait loop

`while self.call_result_id not in app.call_result_repo:
   if self.is_evaluation_ready.wait(timeout=2): break`

One loop iteration observes a pair `(inRepo, signaled)`: whether the call
result id is in the repository at the `while` test, and whether the
subsequent `Event.wait` returned `True` (signal set) rather than timing out.
The trace of such observations determines the control flow completely. -/

inductive ExitReason
  | storePresent
  | signaled
deriving DecidableEq

/-- The wait loop over a finite trace of observations.  `none` means the
trace was exhausted with the loop still running; `some r` means the loop
exited, either because the membership test found the id (`storePresent`) or
because `Event.wait` returned `True` and the `break` fired (`signaled`). -/
def waitLoop : List (Bool × Bool) → Option ExitReason
  | [] => none
  | (inRepo, sig) :: rest =>
    if inRepo then some .storePresent
    else if sig then some .signaled
    else waitLoop rest

/-! ## Sensitivity aggregator: data model

A perturbation name such as `"GAS-2020-1"` is used by `read_results` only
through `perturbed_name.split('-')`: the leading component is the commodity
name, the remaining components are parsed with `int`.  A key is therefore
modelled by its dash-split decomposition: the commodity together with the
list of numeric suffix components.  The sign marker of a downward
perturbation (`'-' + perturbed_name`) is modelled by a Boolean flag. -/

structure PerturbationKey where
  commodity : String
  suffix : List ℤ
deriving DecidableEq

/-- A key of the `perturbed_values` dict: a perturbation key, possibly
carrying the leading `'-'` sign marker. -/
structure SignedKey where
  negated : Bool
  key : PerturbationKey
deriving DecidableEq

/-- A `datetime.date`, as far as `read_results` consumes it. -/
structure PriceDate where
  year : ℤ
  month : ℤ
  day : ℤ
deriving DecidableEq

/-- A per-path sample vector (numpy array of length `n = path_count`). -/
abbrev Vec (n : ℕ) := Fin n → ℚ

/-- numpy `.mean()`: the sum of the samples divided by their number. -/
def vmean {n : ℕ} (v : Vec n) : ℚ := (∑ i, v i) / (n : ℚ)

/-- The mean of the squared deviations from the mean; `numpy.std` is its
square root. -/
def vvariance {n : ℕ} (v : Vec n) : ℚ := (∑ i, (v i - vmean v) ^ 2) / (n : ℚ)

/-- numpy `.std()` (`ddof = 0`), with the square root abstracted as `sq`. -/
def vstd {n : ℕ} (sq : ℚ → ℚ) (v : Vec n) : ℚ := sq (vvariance v)

/-- `call_result.result_value`: either a plain number
(`isinstance(fair_value, (int, float, long))`) or a per-path vector. -/
inductive FairValue (n : ℕ)
  | scalar (x : ℚ)
  | samples (v : Vec n)

/-- The fields of the market simulation consumed by `read_results`. -/
structure MarketSimulation where
  perturbationFactor : ℚ
  observationDate : PriceDate

/-- One element of the `periods` list built by `read_results`.  The spot
bucket dict (lines 179-193) has no `'total_unit_stderr'` entry, hence the
`Option`. -/
structure SensitivityPeriod where
  commodity : PerturbationKey
  date : Option PriceDate
  hedge_units_mean : ℚ
  hedge_units_stderr : ℚ
  price_mean : ℚ
  price_std : ℚ
  cash_in_mean : ℚ
  cash_in_stderr : ℚ
  cum_cash_mean : ℚ
  cum_cash_stderr : ℚ
  cum_pos_mean : ℚ
  cum_pos_stderr : ℚ
  total_unit_stderr : Option ℚ
deriving DecidableEq

/-- The exceptions that can escape `read_results`: a `KeyError` from
`call_result.perturbed_values[...]` (lines 156-157), the uncaught `KeyError`
of the spot-price lookup (line 167), and the wrapped
`"Simulated price for date {} is unavailable"` exception (line 209), which
carries the offending date. -/
inductive ReadError
  | missingPerturbedValue
  | missingSpotPrice
  | missingPriceForDate (d : PriceDate)
deriving DecidableEq

/-- Lines 197-203: `year = int(split[1])`, `month = int(split[2])`,
`day = int(split[3])` when present, else `1`.  Only meaningful when the
suffix has at least two components (the `len(split) > 2` branch). -/
def bucketDate (k : PerturbationKey) : PriceDate :=
  match k.suffix with
  | y :: m :: d :: _ => ⟨y, m, d⟩
  | [y, m] => ⟨y, m, 1⟩
  | _ => ⟨0, 0, 1⟩

/-- The body of the `for perturbed_name in perturbed_names` loop of
`read_results` (lines 154-241), processing the keys in order while threading
the pathwise accumulators `total_units` and `total_cash_in`.  An exception
aborts the whole computation, so no periods are returned in that case, just
as the Python function returns nothing when it raises. -/
def processKeys {n : ℕ} (sq : ℚ → ℚ) (ms : MarketSimulation)
    (priceRepo : String → PriceDate → Option (Vec n))
    (perturbedValues : SignedKey → Option (Vec n)) (sqrt_path_count : ℚ) :
    List PerturbationKey → Vec n → Vec n →
      Except ReadError (List SensitivityPeriod)
  | [], _, _ => .ok []
  | k :: rest, total_units, total_cash_in =>
    match perturbedValues ⟨false, k⟩, perturbedValues ⟨true, k⟩ with
    | some perturbed_value, some perturbed_value_negative =>
      if k.suffix = [] then
        -- `commodity_name == perturbed_name`: the spot bucket, priced at the
        -- simulation's observation date (lines 162-193).
        match priceRepo k.commodity ms.observationDate with
        | none => .error .missingSpotPrice
        | some spv =>
          let price_mean := vmean spv
          let price_std := vstd sq spv
          let dy := fun i => perturbed_value i - perturbed_value_negative i
          let dx := fun i => 2 * ms.perturbationFactor * spv i
          let contract_delta := fun i => dy i / dx i
          let hedge_units := fun i => -contract_delta i
          let hedge_units_mean := vmean hedge_units
          let hedge_units_stderr := vstd sq hedge_units / sqrt_path_count
          let cash_in := fun i => -hedge_units i * spv i
          let cash_in_mean := vmean cash_in
          let cash_in_stderr := vstd sq cash_in / sqrt_path_count
          Except.map
            (fun ps =>
              { commodity := k
                date := none
                hedge_units_mean := hedge_units_mean
                hedge_units_stderr := hedge_units_stderr
                price_mean := price_mean
                price_std := price_std
                cash_in_mean := cash_in_mean
                cash_in_stderr := cash_in_stderr
                cum_cash_mean := cash_in_mean
                cum_cash_stderr := cash_in_stderr
                cum_pos_mean := hedge_units_mean
                cum_pos_stderr := hedge_units_stderr
                total_unit_stderr := none } :: ps)
            (processKeys sq ms priceRepo perturbedValues sqrt_path_count rest
              total_units total_cash_in)
      else if 1 < k.suffix.length then
        -- `len(perturbed_name_split) > 2`: a dated bucket (lines 196-241).
        let price_date := bucketDate k
        match priceRepo k.commodity price_date with
        | none => .error (.missingPriceForDate price_date)
        | some price =>
          let dy := fun i => perturbed_value i - perturbed_value_negative i
          let price_mean := vmean price
          let dx := fun i => 2 * ms.perturbationFactor * price i
          let contract_delta := fun i => dy i / dx i
          let hedge_units := fun i => -contract_delta i
          let cash_in := fun i => -hedge_units i * price i
          let total_units' := fun i => total_units i + hedge_units i
          let total_cash_in' := fun i => total_cash_in i + cash_in i
          let hedge_units_mean := vmean hedge_units
          let hedge_units_stderr := vstd sq hedge_units / sqrt_path_count
          let cash_in_stderr := vstd sq cash_in / sqrt_path_count
          let total_units_stderr := vstd sq total_units' / sqrt_path_count
          let cash_in_mean := vmean cash_in
          let total_units_mean := vmean total_units'
          let total_cash_in_mean := vmean total_cash_in'
          Except.map
            (fun ps =>
              { commodity := k
                date := some price_date
                hedge_units_mean := hedge_units_mean
                hedge_units_stderr := hedge_units_stderr
                price_mean := price_mean
                price_std := vstd sq price
                cash_in_mean := cash_in_mean
                cash_in_stderr := cash_in_stderr
                cum_cash_mean := total_cash_in_mean
                cum_cash_stderr := vstd sq total_cash_in' / sqrt_path_count
                cum_pos_mean := total_units_mean
                cum_pos_stderr := vstd sq total_units' / sqrt_path_count
                total_unit_stderr := some total_units_stderr } :: ps)
            (processKeys sq ms priceRepo perturbedValues sqrt_path_count rest
              total_units' total_cash_in')
      else
        -- A two-component name: no branch applies, the loop moves on.
        processKeys sq ms priceRepo perturbedValues sqrt_path_count rest
          total_units total_cash_in
    | _, _ => .error .missingPerturbedValue

/-- Stable insertion of `x` into `l`, placing `x` after every element that
compares less-or-equal to it. -/
def insertSorted {α : Type} (le : α → α → Bool) (x : α) : List α → List α
  | [] => [x]
  | y :: ys => if le y x then y :: insertSorted le x ys else x :: y :: ys

/-- A stable sort (insertion sort), modelling Python's stable `sorted`. -/
def stableSort {α : Type} (le : α → α → Bool) (l : List α) : List α :=
  l.foldl (fun acc x => insertSorted le x acc) []

/-- Python list comparison on the sort keys
`[int(i) for i in x.split('-')[1:]]`: lexicographic, with an exhausted left
list comparing less-or-equal. -/
def suffixLE : List ℤ → List ℤ → Bool
  | [], _ => true
  | _ :: _, [] => false
  | a :: as, b :: bs => if a < b then true else if b < a then false else suffixLE as bs

/-- Lines 147-149: take the keys of `perturbed_values`, drop those starting
with `'-'`, and sort the rest by their numeric suffix components. -/
def sortedPerturbedNames (names : List SignedKey) : List PerturbationKey :=
  stableSort (fun a b => suffixLE a.suffix b.suffix)
    ((names.filter (fun sk => !sk.negated)).map (fun sk => sk.key))

/-- The part of the call result consumed by `read_results`:
`result_value`, the key list of the `perturbed_values` dict, and the dict
lookup itself. -/
structure CallResultData (n : ℕ) where
  result_value : FairValue n
  perturbedNames : List SignedKey
  perturbedValues : SignedKey → Option (Vec n)

/-- `CalcAndPlot.read_results` (lines 131-243): fair-value statistics, then
the per-period loop; returns `(fair_value_stderr, fair_value_mean, periods)`
or the exception that aborted it. -/
def read_results {n : ℕ} (sq : ℚ → ℚ) (callResult : CallResultData n)
    (ms : MarketSimulation)
    (priceRepo : String → PriceDate → Option (Vec n)) :
    Except ReadError (ℚ × ℚ × List SensitivityPeriod) :=
  let sqrt_path_count := sq (n : ℚ)
  let fv :=
    match callResult.result_value with
    | .scalar x => (x, (0 : ℚ))
    | .samples v => (vmean v, vstd sq v / sqrt_path_count)
  Except.map
    (fun periods => (fv.2, fv.1, periods))
    (processKeys sq ms priceRepo callResult.perturbedValues sqrt_path_count
      (sortedPerturbedNames callResult.perturbedNames)
      (fun _ => 0) (fun _ => 0))

/-! ## Subscription lifecycle of `run`

`run` subscribes the completion filter (line 50) and, inside `calc_results`,
the unit counter (line 100).  The two `unsubscribe` calls sit at the very end
of the `run` body (lines 77-78), after `read_results`, `print_results` and
`plot_results`; they are not in a `finally` block.  `plot_results` raises
`NotImplementedError(periodisation)` when the periodisation is neither
`'monthly'` nor `'daily'`, and it is invoked only when plotting is not
suppressed and more than one period was returned.  The compilation,
simulation and evaluation steps have no subscription effects of their own
and are assumed to succeed; the outcome of `read_results` is a parameter. -/

inductive Handler
  | completionFilter
  | unitCounter
deriving DecidableEq

inductive RunError
  | readError (e : ReadError)
  | badPeriodisation
deriving DecidableEq

/-- `eventsourcing`'s `subscribe` appends the handler to the bus. -/
def subscribeH (subs : List Handler) (h : Handler) : List Handler :=
  subs ++ [h]

/-- `eventsourcing`'s `unsubscribe` removes the handler from the bus. -/
def unsubscribeH (subs : List Handler) (h : Handler) : List Handler :=
  subs.erase h

/-- The subscription lifecycle of `CalcAndPlot.run`: the set of handlers
still subscribed when control leaves `run`, together with the error (if any)
that terminated it.  `readOutcome` abstracts `read_results` (carrying the
number of periods on success), `supressPlot` folds together the
`supress_plot` argument and the `SUPRESS_PLOT` environment variable, and
`periodisation` is the string checked inside `plot_results`. -/
def runHandlers (readOutcome : Except ReadError ℕ) (supressPlot : Bool)
    (periodisation : String) : List Handler × Option RunError :=
  let subs := subscribeH [] .completionFilter
  let subs := subscribeH subs .unitCounter
  match readOutcome with
  | .error e => (subs, some (.readError e))
  | .ok numPeriods =>
    if ¬supressPlot ∧ 1 < numPeriods ∧
        periodisation ≠ "monthly" ∧ periodisation ≠ "daily" then
      (subs, some .badPeriodisation)
    else
      let subs := unsubscribeH subs .unitCounter
      let subs := unsubscribeH subs .completionFilter
      (subs, none)

/-! ## Helper lemmas -/

instance {ε α : Type} [DecidableEq ε] [DecidableEq α] : DecidableEq (Except ε α) := by
  intro a b
  cases a <;> cases b
  case error.error e f => exact decidable_of_iff (e = f) (by simp)
  case ok.ok x y => exact decidable_of_iff (x = y) (by simp)
  all_goals exact isFalse (by simp)

theorem handlerState_times (st : TrackerState) (now : ℚ) :
    (countResultValuesComputed st now).1.times = updateTimes st now := by
  simp only [countResultValuesComputed]
  split_ifs <;> rfl

theorem handlerState_totalCost (st : TrackerState) (now : ℚ) :
    (countResultValuesComputed st now).1.totalCost = st.totalCost := by
  simp only [countResultValuesComputed]
  split_ifs <;> rfl

theorem iterateHandler_totalCost (tc : ℕ) (ts : ℕ → ℚ) (n : ℕ) :
    (iterateHandler tc ts n).totalCost = tc := by
  induction n with
  | zero => rfl
  | succ n ih => rw [iterateHandler, handlerState_totalCost, ih]

theorem cast_gt_half (a b : ℕ) : (((a : ℚ)) > (b : ℚ) / 2) ↔ b < 2 * a := by
  rw [gt_iff_lt, div_lt_iff₀ (by norm_num : (0 : ℚ) < 2)]
  norm_cast
  omega

theorem tail_append_of_ne_nil {α : Type} (l l' : List α) (h : l ≠ []) :
    (l ++ l').tail = l.tail ++ l' := by
  cases l with
  | nil => exact absurd rfl h
  | cons a t => rfl

theorem iterateHandler_times_of_two_le (tc : ℕ) (ts : ℕ → ℚ) (h2 : 2 ≤ tc) :
    ∀ n, (iterateHandler tc ts n).times =
      ((List.range n).map ts).drop (n - min n (tc / 2)) := by
  intro n
  induction n with
  | zero => simp [iterateHandler]
  | succ n ih =>
    have hm : 1 ≤ tc / 2 := by omega
    have hlen : (iterateHandler tc ts n).times.length = min n (tc / 2) := by
      rw [ih, List.length_drop, List.length_map, List.length_range]
      omega
    rw [iterateHandler, handlerState_times]
    unfold updateTimes
    rw [iterateHandler_totalCost]
    simp only [List.length_append, List.length_cons, List.length_nil, hlen]
    rw [List.range_succ, List.map_append]
    by_cases hc : n < tc / 2
    · have : ¬ ((((min n (tc / 2) + 0 + 1 : ℕ)) : ℚ) > (tc : ℚ) / 2) := by
        rw [cast_gt_half]
        omega
      rw [if_neg this, ih]
      have h0 : n - min n (tc / 2) = 0 := by omega
      have h0' : n + 1 - min (n + 1) (tc / 2) = 0 := by omega
      simp [h0, h0']
    · have : ((((min n (tc / 2) + 0 + 1 : ℕ)) : ℚ) > (tc : ℚ) / 2) := by
        rw [cast_gt_half]
        omega
      rw [if_pos this, ih]
      have hne : ((List.range n).map ts).drop (n - min n (tc / 2)) ≠ [] := by
        intro hnil
        have := congrArg List.length hnil
        simp only [List.length_drop, List.length_map, List.length_range,
          List.length_nil] at this
        omega
      rw [tail_append_of_ne_nil _ _ hne, List.tail_drop,
        List.drop_append_eq_append_drop]
      have hd1 : n - min n (tc / 2) + 1 = n + 1 - min (n + 1) (tc / 2) := by omega
      have hd2 : n + 1 - min (n + 1) (tc / 2) - ((List.range n).map ts).length = 0 := by
        simp only [List.length_map, List.length_range]
        omega
      rw [hd1, hd2, List.drop_zero]
      simp

theorem iterateHandler_times_of_le_one (tc : ℕ) (ts : ℕ → ℚ) (h1 : tc ≤ 1) :
    ∀ n, (iterateHandler tc ts n).times = [] := by
  intro n
  induction n with
  | zero => rfl
  | succ n ih =>
    rw [iterateHandler, handlerState_times]
    unfold updateTimes
    rw [iterateHandler_totalCost, ih]
    have : (((([] ++ [ts n] : List ℚ).length : ℕ)) : ℚ) > (tc : ℚ) / 2 := by
      simp only [List.nil_append, List.length_cons, List.length_nil]
      rw [cast_gt_half]
      omega
    rw [if_pos this]
    rfl

section Aggregator

variable {n : ℕ} (sq : ℚ → ℚ) (ms : MarketSimulation)
  (pr : String → PriceDate → Option (Vec n)) (pv : SignedKey → Option (Vec n))
  (sPC : ℚ)

theorem processKeys_cons_dated (k : PerturbationKey)
    (rest : List PerturbationKey) (tu tc V W S : Vec n)
    (hlen : 1 < k.suffix.length)
    (hV : pv ⟨false, k⟩ = some V) (hW : pv ⟨true, k⟩ = some W)
    (hS : pr k.commodity (bucketDate k) = some S) :
    processKeys sq ms pr pv sPC (k :: rest) tu tc =
      Except.map
        (fun ps =>
          { commodity := k
            date := some (bucketDate k)
            hedge_units_mean :=
              vmean (fun i => -((V i - W i) / (2 * ms.perturbationFactor * S i)))
            hedge_units_stderr :=
              vstd sq (fun i => -((V i - W i) / (2 * ms.perturbationFactor * S i))) / sPC
            price_mean := vmean S
            price_std := vstd sq S
            cash_in_mean :=
              vmean (fun i => - -((V i - W i) / (2 * ms.perturbationFactor * S i)) * S i)
            cash_in_stderr :=
              vstd sq (fun i => - -((V i - W i) / (2 * ms.perturbationFactor * S i)) * S i) / sPC
            cum_cash_mean :=
              vmean (fun i => tc i + - -((V i - W i) / (2 * ms.perturbationFactor * S i)) * S i)
            cum_cash_stderr :=
              vstd sq (fun i => tc i + - -((V i - W i) / (2 * ms.perturbationFactor * S i)) * S i) / sPC
            cum_pos_mean :=
              vmean (fun i => tu i + -((V i - W i) / (2 * ms.perturbationFactor * S i)))
            cum_pos_stderr :=
              vstd sq (fun i => tu i + -((V i - W i) / (2 * ms.perturbationFactor * S i))) / sPC
            total_unit_stderr :=
              some (vstd sq (fun i => tu i + -((V i - W i) / (2 * ms.perturbationFactor * S i))) / sPC) } :: ps)
        (processKeys sq ms pr pv sPC rest
          (fun i => tu i + -((V i - W i) / (2 * ms.perturbationFactor * S i)))
          (fun i => tc i + - -((V i - W i) / (2 * ms.perturbationFactor * S i)) * S i)) := by
  have hne : ¬(k.suffix = []) := by
    intro h0
    rw [h0] at hlen
    simp at hlen
  simp only [processKeys, hV, hW]
  rw [if_neg hne, if_pos hlen]
  simp only [hS]

theorem processKeys_cons_spot (k : PerturbationKey)
    (rest : List PerturbationKey) (tu tc V W S : Vec n)
    (hsuf : k.suffix = [])
    (hV : pv ⟨false, k⟩ = some V) (hW : pv ⟨true, k⟩ = some W)
    (hS : pr k.commodity ms.observationDate = some S) :
    processKeys sq ms pr pv sPC (k :: rest) tu tc =
      Except.map
        (fun ps =>
          { commodity := k
            date := none
            hedge_units_mean :=
              vmean (fun i => -((V i - W i) / (2 * ms.perturbationFactor * S i)))
            hedge_units_stderr :=
              vstd sq (fun i => -((V i - W i) / (2 * ms.perturbationFactor * S i))) / sPC
            price_mean := vmean S
            price_std := vstd sq S
            cash_in_mean :=
              vmean (fun i => - -((V i - W i) / (2 * ms.perturbationFactor * S i)) * S i)
            cash_in_stderr :=
              vstd sq (fun i => - -((V i - W i) / (2 * ms.perturbationFactor * S i)) * S i) / sPC
            cum_cash_mean :=
              vmean (fun i => - -((V i - W i) / (2 * ms.perturbationFactor * S i)) * S i)
            cum_cash_stderr :=
              vstd sq (fun i => - -((V i - W i) / (2 * ms.perturbationFactor * S i)) * S i) / sPC
            cum_pos_mean :=
              vmean (fun i => -((V i - W i) / (2 * ms.perturbationFactor * S i)))
            cum_pos_stderr :=
              vstd sq (fun i => -((V i - W i) / (2 * ms.perturbationFactor * S i))) / sPC
            total_unit_stderr := none } :: ps)
        (processKeys sq ms pr pv sPC rest tu tc) := by
  simp only [processKeys, hV, hW]
  rw [if_pos hsuf]
  simp only [hS]

theorem processKeys_cons_skip (k : PerturbationKey)
    (rest : List PerturbationKey) (tu tc : Vec n)
    (hlen : k.suffix.length = 1)
    (hV : (pv ⟨false, k⟩).isSome) (hW : (pv ⟨true, k⟩).isSome) :
    processKeys sq ms pr pv sPC (k :: rest) tu tc =
      processKeys sq ms pr pv sPC rest tu tc := by
  obtain ⟨V, hV'⟩ := Option.isSome_iff_exists.mp hV
  obtain ⟨W, hW'⟩ := Option.isSome_iff_exists.mp hW
  have hne : ¬(k.suffix = []) := by
    intro h0
    rw [h0] at hlen
    simp at hlen
  have hlt : ¬(1 < k.suffix.length) := by omega
  simp only [processKeys, hV', hW']
  rw [if_neg hne, if_neg hlt]

theorem processKeys_cons_missing (k : PerturbationKey)
    (rest : List PerturbationKey) (tu tc : Vec n)
    (h : pv ⟨false, k⟩ = none ∨ pv ⟨true, k⟩ = none) :
    processKeys sq ms pr pv sPC (k :: rest) tu tc =
      .error .missingPerturbedValue := by
  rcases h with h | h
  · simp only [processKeys, h]
  · rcases hV : pv ⟨false, k⟩ with _ | V <;> simp only [processKeys, hV, h]

theorem processKeys_cons_dated_missing_price (k : PerturbationKey)
    (rest : List PerturbationKey) (tu tc V W : Vec n)
    (hlen : 1 < k.suffix.length)
    (hV : pv ⟨false, k⟩ = some V) (hW : pv ⟨true, k⟩ = some W)
    (hS : pr k.commodity (bucketDate k) = none) :
    processKeys sq ms pr pv sPC (k :: rest) tu tc =
      .error (.missingPriceForDate (bucketDate k)) := by
  have hne : ¬(k.suffix = []) := by
    intro h0
    rw [h0] at hlen
    simp at hlen
  simp only [processKeys, hV, hW]
  rw [if_neg hne, if_pos hlen]
  simp only [hS]

theorem processKeys_cons_spot_missing_price (k : PerturbationKey)
    (rest : List PerturbationKey) (tu tc V W : Vec n)
    (hsuf : k.suffix = [])
    (hV : pv ⟨false, k⟩ = some V) (hW : pv ⟨true, k⟩ = some W)
    (hS : pr k.commodity ms.observationDate = none) :
    processKeys sq ms pr pv sPC (k :: rest) tu tc =
      .error .missingSpotPrice := by
  simp only [processKeys, hV, hW]
  rw [if_pos hsuf]
  simp only [hS]

end Aggregator

/-! ## Claim C1: the reported rate -/

/-- C1 counterexample.  At the reachable tracker state with
`times = [0]`, `count = 1`, `total_cost = 100` (the state after one
notification at timestamp `0`), a notification at timestamp `1` leaves the
window `[0, 1]` (2 samples) and reports `rate = 2`: the code divides by the
full window length (`rate = len(self.times) / duration`), whereas the claim's
formula `(len(window) - 1) / (newest - oldest)` gives `1`. -/
theorem c1_counterexample :
    (countResultValuesComputed ⟨[0], 1, 100⟩ 1).2 =
      .ok ⟨2, 2, 99 / 2⟩ ∧ ((2 : ℚ)) ≠ (2 - 1) / (1 - 0) := by
  constructor
  · norm_num [countResultValuesComputed, updateTimes]
  · norm_num

/-- C1 (amended): whenever the post-update window holds at least 2 samples,
the window span is nonzero and `total_cost` is nonzero, the handler reports
`rate = len(window) / (newest - oldest)` — the sample count is not reduced
by one — together with `percent = 100 * (count + 1) / total_cost` and
`eta = (total_cost - count) / rate`. -/
theorem c1_rate_is_window_length_over_span (st : TrackerState) (now : ℚ)
    (h2 : 1 < (updateTimes st now).length)
    (hdur : (updateTimes st now).getLastD 0 - (updateTimes st now).headD 0 ≠ 0)
    (htc : st.totalCost ≠ 0) :
    (countResultValuesComputed st now).2 =
      .ok ⟨100 * ((st.count + 1 : ℕ) : ℚ) / (st.totalCost : ℚ),
           ((updateTimes st now).length : ℚ) /
             ((updateTimes st now).getLastD 0 - (updateTimes st now).headD 0),
           ((st.totalCost : ℚ) - (st.count : ℚ)) /
             (((updateTimes st now).length : ℚ) /
               ((updateTimes st now).getLastD 0 - (updateTimes st now).headD 0))⟩ := by
  simp only [countResultValuesComputed]
  rw [if_pos h2, if_neg hdur, if_neg htc]

/-- C1 witness: the amended theorem applied at the concrete state of the
counterexample. -/
theorem c1_rate_is_window_length_over_span_witness :
    (1 < (updateTimes ⟨[0], 1, 100⟩ 1).length ∧
      (updateTimes ⟨[0], 1, 100⟩ 1).getLastD 0 -
        (updateTimes ⟨[0], 1, 100⟩ 1).headD 0 ≠ 0 ∧
      (⟨[0], 1, 100⟩ : TrackerState).totalCost ≠ 0) ∧
    (countResultValuesComputed ⟨[0], 1, 100⟩ 1).2 =
      .ok ⟨100 * (((1 : ℕ) + 1 : ℕ) : ℚ) / ((100 : ℕ) : ℚ),
           ((updateTimes ⟨[0], 1, 100⟩ 1).length : ℚ) /
             ((updateTimes ⟨[0], 1, 100⟩ 1).getLastD 0 -
               (updateTimes ⟨[0], 1, 100⟩ 1).headD 0),
           (((100 : ℕ) : ℚ) - ((1 : ℕ) : ℚ)) /
             (((updateTimes ⟨[0], 1, 100⟩ 1).length : ℚ) /
               ((updateTimes ⟨[0], 1, 100⟩ 1).getLastD 0 -
                 (updateTimes ⟨[0], 1, 100⟩ 1).headD 0))⟩ :=
  ⟨⟨by norm_num [updateTimes], by norm_num [updateTimes], by norm_num⟩,
    c1_rate_is_window_length_over_span ⟨[0], 1, 100⟩ 1
      (by norm_num [updateTimes]) (by norm_num [updateTimes]) (by norm_num)⟩

/-! ## Claim C2: the completion wait loop -/

/-- C2 counterexample.  On the trace with a single iteration in which the id
is absent from the result store but `Event.wait` returns `True`, the loop
exits through the `break` — it proceeds to read the result although the id
was never observed in the store, and no membership re-check follows the
signaled wake. -/
theorem c2_counterexample :
    waitLoop [(false, true)] = some ExitReason.signaled := by
  decide

/-- C2 (amended): the loop exits iff some iteration observes the id in the
store at the `while` test or observes a signaled wake; a signaled wake makes
the loop `break` immediately, without re-checking store membership,
whatever would come after. -/
theorem c2_exit_characterisation : ∀ trace : List (Bool × Bool),
    (waitLoop trace).isSome = trace.any (fun p => p.1 || p.2) ∧
    waitLoop ((false, true) :: trace) = some ExitReason.signaled := by
  intro trace
  constructor
  · induction trace with
    | nil => rfl
    | cons p tl ih =>
      rcases p with ⟨a, b⟩
      rcases a <;> rcases b <;> simp [waitLoop, ih]
  · rfl

/-! ## Claim C3: `total_cost == 0` -/

/-- C3 counterexample.  With `total_cost = 0`, a unit-completed notification
on a fresh tracker raises `ZeroDivisionError` at the percent computation
`(100.0 * self.result_values_computed_count) / self.total_cost`: the handler
fails rather than reporting `percent = 100`. -/
theorem c3_counterexample :
    (countResultValuesComputed ⟨[], 0, 0⟩ 5).2 = .error .zeroTotalCost := by
  norm_num [countResultValuesComputed, updateTimes]

/-- C3 (amended): whenever `total_cost = 0`, the notification handler raises
a division error (at the percent division, or at the rate division when the
window span is zero); there is no short-circuit and no reported snapshot. -/
theorem c3_zero_total_cost_raises (st : TrackerState) (now : ℚ)
    (h : st.totalCost = 0) :
    ∃ e, (countResultValuesComputed st now).2 = .error e := by
  simp only [countResultValuesComputed]
  split_ifs <;> exact ⟨_, rfl⟩

/-- C3 witness: the amended theorem applied at the fresh state with
`total_cost = 0`. -/
theorem c3_zero_total_cost_raises_witness :
    (⟨[], 0, 0⟩ : TrackerState).totalCost = 0 ∧
    ∃ e, (countResultValuesComputed ⟨[], 0, 0⟩ 5).2 = .error e :=
  ⟨rfl, c3_zero_total_cost_raises ⟨[], 0, 0⟩ 5 rfl⟩

/-! ## Claim C4: the sliding window bound -/

/-- C4 counterexample.  With `total_cost = 1`, already the first notification
leaves the window empty: `len([t]) = 1 > 0.5 * 1` triggers the `popleft`, so
the window length is `0`, below the claimed minimum of `1`
(`max(1, total_cost/2) = 1` would also force length exactly `1`). -/
theorem c4_counterexample :
    (iterateHandler 1 (fun i => (i : ℚ)) 1).times = [] := by
  norm_num [iterateHandler, countResultValuesComputed, updateTimes]

/-- C4 (amended): for `total_cost ≥ 2`, after `n ≥ 1` notifications the
window holds exactly the `min n (total_cost / 2)` most recent timestamps in
arrival order (oldest evicted first), so its length is at least 1 and at
most `max 1 (total_cost / 2)`; for `total_cost ≤ 1` every notification
empties the window, so its length is `0`, not `1`. -/
theorem c4_window_bound :
    (∀ (tc : ℕ) (ts : ℕ → ℚ) (n : ℕ), 2 ≤ tc → 1 ≤ n →
      (iterateHandler tc ts n).times =
        ((List.range n).map ts).drop (n - min n (tc / 2)) ∧
      (iterateHandler tc ts n).times.length = min n (tc / 2) ∧
      1 ≤ (iterateHandler tc ts n).times.length ∧
      ((iterateHandler tc ts n).times.length : ℚ) ≤ max 1 ((tc : ℚ) / 2)) ∧
    (∀ (tc : ℕ) (ts : ℕ → ℚ) (n : ℕ), tc ≤ 1 → 1 ≤ n →
      (iterateHandler tc ts n).times = []) := by
  constructor
  · intro tc ts n h2 hn
    have heq := iterateHandler_times_of_two_le tc ts h2 n
    have hlen : (iterateHandler tc ts n).times.length = min n (tc / 2) := by
      rw [heq, List.length_drop, List.length_map, List.length_range]
      omega
    refine ⟨heq, hlen, ?_, ?_⟩
    · omega
    · rw [hlen]
      have hstep : min n (tc / 2) ≤ tc / 2 := Nat.min_le_right _ _
      have hfl : ((min n (tc / 2) : ℕ) : ℚ) ≤ ((tc : ℚ)) / 2 := by
        calc ((min n (tc / 2) : ℕ) : ℚ) ≤ ((tc / 2 : ℕ) : ℚ) := Nat.cast_le.mpr hstep
          _ ≤ (tc : ℚ) / 2 := by exact_mod_cast Nat.cast_div_le
      exact le_trans hfl (le_max_right _ _)
  · intro tc ts n h1 _
    exact iterateHandler_times_of_le_one tc ts h1 n

/-- C4 witness: the amended theorem applied with `total_cost = 4` and three
evenly indexed notifications; the window keeps the last
`min 3 2 = 2` timestamps. -/
theorem c4_window_bound_witness :
    (2 ≤ 4 ∧ 1 ≤ 3) ∧
    ((iterateHandler 4 (fun i => (i : ℚ)) 3).times =
        ((List.range 3).map (fun i => (i : ℚ))).drop (3 - min 3 (4 / 2)) ∧
      (iterateHandler 4 (fun i => (i : ℚ)) 3).times.length = min 3 (4 / 2) ∧
      1 ≤ (iterateHandler 4 (fun i => (i : ℚ)) 3).times.length ∧
      ((iterateHandler 4 (fun i => (i : ℚ)) 3).times.length : ℚ) ≤
        max 1 (((4 : ℕ) : ℚ) / 2)) :=
  ⟨⟨by norm_num, by norm_num⟩,
    c4_window_bound.1 4 (fun i => (i : ℚ)) 3 (by norm_num) (by norm_num)⟩

/-! ## Claim C9: subscription lifecycle -/

/-- C9 counterexample.  When `read_results` raises (here: a missing
simulated price), control never reaches the two `unsubscribe` calls at the
end of `run`: both handlers are still subscribed at exit. -/
theorem c9_counterexample :
    runHandlers (.error (.missingPriceForDate ⟨2020, 1, 1⟩)) false "monthly" =
      ([Handler.completionFilter, Handler.unitCounter],
        some (.readError (.missingPriceForDate ⟨2020, 1, 1⟩))) := by
  rfl

/-- C9 (amended): the two subscriptions are unregistered exactly on a
successful exit of `run`; on an error exit (a `read_results` failure or an
unrecognized periodisation reached during plotting) the `unsubscribe` calls
are never executed and both handlers remain subscribed. -/
theorem c9_unsubscribe_only_on_success (ro : Except ReadError ℕ)
    (sp : Bool) (per : String) :
    (runHandlers ro sp per).1 =
      if (runHandlers ro sp per).2 = none then []
      else [Handler.completionFilter, Handler.unitCounter] := by
  rcases ro with e | np
  · rfl
  · simp only [runHandlers, subscribeH, unsubscribeH]
    split <;> rfl

/-! ## Claim C5: the central-difference hedge formulas -/

/-- C5: for every perturbation key that is aggregated — a dated bucket
(`len(split) > 2`) or the spot bucket (bare commodity name) — with both the
positive and the negated sample vectors present and the bucket's simulated
price available, the loop body computes, per path,
`hedge_units = -((V(+) - V(-)) / (2 * perturbation_factor * price))` and
`cash_in = -hedge_units * price`, using that bucket's own price vector, and
the emitted period reports the statistics of exactly these vectors. -/
theorem c5_hedge_units_and_cash_in_formulas :
    (∀ {n : ℕ} (sq : ℚ → ℚ) (ms : MarketSimulation)
      (pr : String → PriceDate → Option (Vec n))
      (pv : SignedKey → Option (Vec n)) (sPC : ℚ)
      (k : PerturbationKey) (rest : List PerturbationKey)
      (tu tc V W S : Vec n),
      1 < k.suffix.length →
      pv ⟨false, k⟩ = some V → pv ⟨true, k⟩ = some W →
      pr k.commodity (bucketDate k) = some S →
      processKeys sq ms pr pv sPC (k :: rest) tu tc =
        (let h : Vec n := fun i => -((V i - W i) / (2 * ms.perturbationFactor * S i))
         let c : Vec n := fun i => -h i * S i
         Except.map
          (fun ps =>
            { commodity := k
              date := some (bucketDate k)
              hedge_units_mean := vmean h
              hedge_units_stderr := vstd sq h / sPC
              price_mean := vmean S
              price_std := vstd sq S
              cash_in_mean := vmean c
              cash_in_stderr := vstd sq c / sPC
              cum_cash_mean := vmean (fun i => tc i + c i)
              cum_cash_stderr := vstd sq (fun i => tc i + c i) / sPC
              cum_pos_mean := vmean (fun i => tu i + h i)
              cum_pos_stderr := vstd sq (fun i => tu i + h i) / sPC
              total_unit_stderr := some (vstd sq (fun i => tu i + h i) / sPC) } :: ps)
          (processKeys sq ms pr pv sPC rest
            (fun i => tu i + (-((V i - W i) / (2 * ms.perturbationFactor * S i))))
            (fun i => tc i + (-(-((V i - W i) / (2 * ms.perturbationFactor * S i))) * S i))))) ∧
    (∀ {n : ℕ} (sq : ℚ → ℚ) (ms : MarketSimulation)
      (pr : String → PriceDate → Option (Vec n))
      (pv : SignedKey → Option (Vec n)) (sPC : ℚ)
      (k : PerturbationKey) (rest : List PerturbationKey)
      (tu tc V W S : Vec n),
      k.suffix = [] →
      pv ⟨false, k⟩ = some V → pv ⟨true, k⟩ = some W →
      pr k.commodity ms.observationDate = some S →
      processKeys sq ms pr pv sPC (k :: rest) tu tc =
        (let h : Vec n := fun i => -((V i - W i) / (2 * ms.perturbationFactor * S i))
         let c : Vec n := fun i => -h i * S i
         Except.map
          (fun ps =>
            { commodity := k
              date := none
              hedge_units_mean := vmean h
              hedge_units_stderr := vstd sq h / sPC
              price_mean := vmean S
              price_std := vstd sq S
              cash_in_mean := vmean c
              cash_in_stderr := vstd sq c / sPC
              cum_cash_mean := vmean c
              cum_cash_stderr := vstd sq c / sPC
              cum_pos_mean := vmean h
              cum_pos_stderr := vstd sq h / sPC
              total_unit_stderr := none } :: ps)
          (processKeys sq ms pr pv sPC rest tu tc))) :=
  ⟨fun sq ms pr pv sPC k rest tu tc V W S hlen hV hW hS =>
      processKeys_cons_dated sq ms pr pv sPC k rest tu tc V W S hlen hV hW hS,
    fun sq ms pr pv sPC k rest tu tc V W S hsuf hV hW hS =>
      processKeys_cons_spot sq ms pr pv sPC k rest tu tc V W S hsuf hV hW hS⟩

/-- C5 witness: one path, a dated bucket `OIL-2020-1` with `V(+) = 105`,
`V(-) = 95`, price `50` and perturbation factor `1/100`. -/
theorem c5_hedge_units_and_cash_in_formulas_witness :
    (1 < (⟨"OIL", [2020, 1]⟩ : PerturbationKey).suffix.length ∧
      (fun sk : SignedKey =>
          if sk.negated then some (fun _ : Fin 1 => (95 : ℚ))
          else some (fun _ : Fin 1 => (105 : ℚ)))
        ⟨false, ⟨"OIL", [2020, 1]⟩⟩ = some (fun _ : Fin 1 => (105 : ℚ)) ∧
      (fun sk : SignedKey =>
          if sk.negated then some (fun _ : Fin 1 => (95 : ℚ))
          else some (fun _ : Fin 1 => (105 : ℚ)))
        ⟨true, ⟨"OIL", [2020, 1]⟩⟩ = some (fun _ : Fin 1 => (95 : ℚ)) ∧
      (fun (_ : String) (_ : PriceDate) => some (fun _ : Fin 1 => (50 : ℚ)))
        (⟨"OIL", [2020, 1]⟩ : PerturbationKey).commodity
        (bucketDate ⟨"OIL", [2020, 1]⟩) = some (fun _ : Fin 1 => (50 : ℚ))) ∧
    processKeys (n := 1) (fun x => x) ⟨1 / 100, ⟨2011, 1, 1⟩⟩
        (fun _ _ => some (fun _ => (50 : ℚ)))
        (fun sk =>
          if sk.negated then some (fun _ => (95 : ℚ))
          else some (fun _ => (105 : ℚ))) 1
        (⟨"OIL", [2020, 1]⟩ :: []) (fun _ => 0) (fun _ => 0) =
      (let h : Vec 1 := fun i =>
        -(((fun _ : Fin 1 => (105 : ℚ)) i - (fun _ : Fin 1 => (95 : ℚ)) i) /
          (2 * (⟨1 / 100, ⟨2011, 1, 1⟩⟩ : MarketSimulation).perturbationFactor *
            (fun _ : Fin 1 => (50 : ℚ)) i))
       let c : Vec 1 := fun i => -h i * (fun _ : Fin 1 => (50 : ℚ)) i
       Except.map
        (fun ps =>
          { commodity := ⟨"OIL", [2020, 1]⟩
            date := some (bucketDate ⟨"OIL", [2020, 1]⟩)
            hedge_units_mean := vmean h
            hedge_units_stderr := vstd (fun x => x) h / 1
            price_mean := vmean (fun _ : Fin 1 => (50 : ℚ))
            price_std := vstd (fun x => x) (fun _ : Fin 1 => (50 : ℚ))
            cash_in_mean := vmean c
            cash_in_stderr := vstd (fun x => x) c / 1
            cum_cash_mean := vmean (fun i => (fun _ : Fin 1 => (0 : ℚ)) i + c i)
            cum_cash_stderr := vstd (fun x => x) (fun i => (fun _ : Fin 1 => (0 : ℚ)) i + c i) / 1
            cum_pos_mean := vmean (fun i => (fun _ : Fin 1 => (0 : ℚ)) i + h i)
            cum_pos_stderr := vstd (fun x => x) (fun i => (fun _ : Fin 1 => (0 : ℚ)) i + h i) / 1
            total_unit_stderr :=
              some (vstd (fun x => x) (fun i => (fun _ : Fin 1 => (0 : ℚ)) i + h i) / 1) } :: ps)
        (processKeys (fun x => x) ⟨1 / 100, ⟨2011, 1, 1⟩⟩
          (fun _ _ => some (fun _ => (50 : ℚ)))
          (fun sk =>
            if sk.negated then some (fun _ => (95 : ℚ))
            else some (fun _ => (105 : ℚ))) 1 []
          (fun i => (fun _ : Fin 1 => (0 : ℚ)) i +
            (-(((fun _ : Fin 1 => (105 : ℚ)) i - (fun _ : Fin 1 => (95 : ℚ)) i) /
              (2 * (⟨1 / 100, ⟨2011, 1, 1⟩⟩ : MarketSimulation).perturbationFactor *
                (fun _ : Fin 1 => (50 : ℚ)) i))))
          (fun i => (fun _ : Fin 1 => (0 : ℚ)) i +
            (-(-(((fun _ : Fin 1 => (105 : ℚ)) i - (fun _ : Fin 1 => (95 : ℚ)) i) /
              (2 * (⟨1 / 100, ⟨2011, 1, 1⟩⟩ : MarketSimulation).perturbationFactor *
                (fun _ : Fin 1 => (50 : ℚ)) i))) *
              (fun _ : Fin 1 => (50 : ℚ)) i)))) :=
  ⟨⟨by decide, rfl, rfl, rfl⟩,
    c5_hedge_units_and_cash_in_formulas.1 (fun x => x) ⟨1 / 100, ⟨2011, 1, 1⟩⟩
      (fun _ _ => some (fun _ => (50 : ℚ)))
      (fun sk =>
        if sk.negated then some (fun _ => (95 : ℚ))
        else some (fun _ => (105 : ℚ))) 1
      ⟨"OIL", [2020, 1]⟩ [] (fun _ => 0) (fun _ => 0)
      (fun _ => 105) (fun _ => 95) (fun _ => 50)
      (by decide) rfl rfl rfl⟩

/-! ## Claim C6: standard-error scaling -/

/-- C6: with `sqrt_path_count = sq(n)` as in `read_results`, every reported
standard-error field — the fair-value stderr, the per-bucket hedge and cash
stderr, the cumulative position and cash stderr and the total-units stderr —
equals the sample standard deviation of the corresponding per-path vector
divided by the square root of the path count, while the per-bucket price
dispersion `price_std` is the unscaled sample standard deviation. -/
theorem c6_stderr_is_std_over_sqrt_path_count :
    (∀ {n : ℕ} (sq : ℚ → ℚ) (ms : MarketSimulation)
      (pr : String → PriceDate → Option (Vec n))
      (pv : SignedKey → Option (Vec n))
      (k : PerturbationKey) (rest : List PerturbationKey)
      (tu tc V W S : Vec n) (p : SensitivityPeriod) (ps : List SensitivityPeriod),
      1 < k.suffix.length →
      pv ⟨false, k⟩ = some V → pv ⟨true, k⟩ = some W →
      pr k.commodity (bucketDate k) = some S →
      processKeys sq ms pr pv (sq (n : ℚ)) (k :: rest) tu tc = .ok (p :: ps) →
      (let h : Vec n := fun i => -((V i - W i) / (2 * ms.perturbationFactor * S i))
       let c : Vec n := fun i => -h i * S i
       p.hedge_units_stderr = vstd sq h / sq (n : ℚ) ∧
       p.cash_in_stderr = vstd sq c / sq (n : ℚ) ∧
       p.cum_pos_stderr = vstd sq (fun i => tu i + h i) / sq (n : ℚ) ∧
       p.cum_cash_stderr = vstd sq (fun i => tc i + c i) / sq (n : ℚ) ∧
       p.total_unit_stderr = some (vstd sq (fun i => tu i + h i) / sq (n : ℚ)) ∧
       p.price_std = vstd sq S)) ∧
    (∀ {n : ℕ} (sq : ℚ → ℚ) (ms : MarketSimulation)
      (pr : String → PriceDate → Option (Vec n))
      (pv : SignedKey → Option (Vec n))
      (k : PerturbationKey) (rest : List PerturbationKey)
      (tu tc V W S : Vec n) (p : SensitivityPeriod) (ps : List SensitivityPeriod),
      k.suffix = [] →
      pv ⟨false, k⟩ = some V → pv ⟨true, k⟩ = some W →
      pr k.commodity ms.observationDate = some S →
      processKeys sq ms pr pv (sq (n : ℚ)) (k :: rest) tu tc = .ok (p :: ps) →
      (let h : Vec n := fun i => -((V i - W i) / (2 * ms.perturbationFactor * S i))
       let c : Vec n := fun i => -h i * S i
       p.hedge_units_stderr = vstd sq h / sq (n : ℚ) ∧
       p.cash_in_stderr = vstd sq c / sq (n : ℚ) ∧
       p.cum_pos_stderr = vstd sq h / sq (n : ℚ) ∧
       p.cum_cash_stderr = vstd sq c / sq (n : ℚ) ∧
       p.total_unit_stderr = none ∧
       p.price_std = vstd sq S)) ∧
    (∀ {n : ℕ} (sq : ℚ → ℚ) (cr : CallResultData n) (ms : MarketSimulation)
      (pr : String → PriceDate → Option (Vec n)) (v : Vec n)
      (out : ℚ × ℚ × List SensitivityPeriod),
      cr.result_value = .samples v →
      read_results sq cr ms pr = .ok out →
      out.1 = vstd sq v / sq (n : ℚ)) := by
  refine ⟨?_, ?_, ?_⟩
  · intro n sq ms pr pv k rest tu tc V W S p ps hlen hV hW hS hok
    rw [processKeys_cons_dated sq ms pr pv (sq (n : ℚ)) k rest tu tc V W S hlen hV hW hS]
      at hok
    rcases hrec : processKeys sq ms pr pv (sq (n : ℚ)) rest
        (fun i => tu i + -((V i - W i) / (2 * ms.perturbationFactor * S i)))
        (fun i => tc i + - -((V i - W i) / (2 * ms.perturbationFactor * S i)) * S i)
      with e | ps'
    · rw [hrec] at hok
      simp [Except.map] at hok
    · rw [hrec] at hok
      simp only [Except.map, Except.ok.injEq, List.cons.injEq] at hok
      obtain ⟨hp, -⟩ := hok
      rw [← hp]
      exact ⟨rfl, rfl, rfl, rfl, rfl, rfl⟩
  · intro n sq ms pr pv k rest tu tc V W S p ps hsuf hV hW hS hok
    rw [processKeys_cons_spot sq ms pr pv (sq (n : ℚ)) k rest tu tc V W S hsuf hV hW hS]
      at hok
    rcases hrec : processKeys sq ms pr pv (sq (n : ℚ)) rest tu tc with e | ps'
    · rw [hrec] at hok
      simp [Except.map] at hok
    · rw [hrec] at hok
      simp only [Except.map, Except.ok.injEq, List.cons.injEq] at hok
      obtain ⟨hp, -⟩ := hok
      rw [← hp]
      exact ⟨rfl, rfl, rfl, rfl, rfl, rfl⟩
  · intro n sq cr ms pr v out hv hok
    simp only [read_results, hv] at hok
    rcases hrec : processKeys sq ms pr cr.perturbedValues (sq (n : ℚ))
        (sortedPerturbedNames cr.perturbedNames) (fun _ => 0) (fun _ => 0)
      with e | ps
    · rw [hrec] at hok
      simp [Except.map] at hok
    · rw [hrec] at hok
      simp only [Except.map, Except.ok.injEq] at hok
      rw [← hok]

/-- Concrete evaluation of `processKeys` on the one-path dated bucket used
by the C6 witness. -/
theorem c6_witness_eval :
    processKeys (n := 1) (fun x => x) ⟨1 / 100, ⟨2011, 1, 1⟩⟩
        (fun _ _ => some (fun _ => (50 : ℚ)))
        (fun sk =>
          if sk.negated then some (fun _ => (95 : ℚ))
          else some (fun _ => (105 : ℚ))) ((fun x : ℚ => x) ((1 : ℕ) : ℚ))
        (⟨"OIL", [2020, 1]⟩ :: []) (fun _ => 0) (fun _ => 0) =
        .ok [{ commodity := ⟨"OIL", [2020, 1]⟩
               date := some ⟨2020, 1, 1⟩
               hedge_units_mean := -10
               hedge_units_stderr := 0
               price_mean := 50
               price_std := 0
               cash_in_mean := 500
               cash_in_stderr := 0
               cum_cash_mean := 500
               cum_cash_stderr := 0
               cum_pos_mean := -10
               cum_pos_stderr := 0
               total_unit_stderr := some 0 }] := by
  norm_num [processKeys, vmean, vvariance, vstd, bucketDate, Fin.sum_univ_one, Except.map]
  exact fun h => absurd h (by decide)

/-- C6 witness: one path, the dated bucket of the C5 scenario, reaching the
dated conjunct of the theorem through a successful `processKeys` run. -/
theorem c6_stderr_is_std_over_sqrt_path_count_witness :
    (1 < (⟨"OIL", [2020, 1]⟩ : PerturbationKey).suffix.length ∧
      (fun sk : SignedKey =>
          if sk.negated then some (fun _ : Fin 1 => (95 : ℚ))
          else some (fun _ : Fin 1 => (105 : ℚ)))
        ⟨false, ⟨"OIL", [2020, 1]⟩⟩ = some (fun _ : Fin 1 => (105 : ℚ)) ∧
      (fun sk : SignedKey =>
          if sk.negated then some (fun _ : Fin 1 => (95 : ℚ))
          else some (fun _ : Fin 1 => (105 : ℚ)))
        ⟨true, ⟨"OIL", [2020, 1]⟩⟩ = some (fun _ : Fin 1 => (95 : ℚ)) ∧
      (fun (_ : String) (_ : PriceDate) => some (fun _ : Fin 1 => (50 : ℚ)))
        (⟨"OIL", [2020, 1]⟩ : PerturbationKey).commodity
        (bucketDate ⟨"OIL", [2020, 1]⟩) = some (fun _ : Fin 1 => (50 : ℚ)) ∧
      processKeys (n := 1) (fun x => x) ⟨1 / 100, ⟨2011, 1, 1⟩⟩
        (fun _ _ => some (fun _ => (50 : ℚ)))
        (fun sk =>
          if sk.negated then some (fun _ => (95 : ℚ))
          else some (fun _ => (105 : ℚ))) ((fun x : ℚ => x) ((1 : ℕ) : ℚ))
        (⟨"OIL", [2020, 1]⟩ :: []) (fun _ => 0) (fun _ => 0) =
        .ok [{ commodity := ⟨"OIL", [2020, 1]⟩
               date := some ⟨2020, 1, 1⟩
               hedge_units_mean := -10
               hedge_units_stderr := 0
               price_mean := 50
               price_std := 0
               cash_in_mean := 500
               cash_in_stderr := 0
               cum_cash_mean := 500
               cum_cash_stderr := 0
               cum_pos_mean := -10
               cum_pos_stderr := 0
               total_unit_stderr := some 0 }]) ∧
    (let h : Vec 1 := fun i =>
       -(((fun _ : Fin 1 => (105 : ℚ)) i - (fun _ : Fin 1 => (95 : ℚ)) i) /
         (2 * (⟨1 / 100, ⟨2011, 1, 1⟩⟩ : MarketSimulation).perturbationFactor *
           (fun _ : Fin 1 => (50 : ℚ)) i))
     let c : Vec 1 := fun i => -h i * (fun _ : Fin 1 => (50 : ℚ)) i
     ({ commodity := ⟨"OIL", [2020, 1]⟩
        date := some ⟨2020, 1, 1⟩
        hedge_units_mean := -10
        hedge_units_stderr := 0
        price_mean := 50
        price_std := 0
        cash_in_mean := 500
        cash_in_stderr := 0
        cum_cash_mean := 500
        cum_cash_stderr := 0
        cum_pos_mean := -10
        cum_pos_stderr := 0
        total_unit_stderr := some 0 } : SensitivityPeriod).hedge_units_stderr =
         vstd (fun x => x) h / (fun x : ℚ => x) ((1 : ℕ) : ℚ) ∧
     ({ commodity := ⟨"OIL", [2020, 1]⟩
        date := some ⟨2020, 1, 1⟩
        hedge_units_mean := -10
        hedge_units_stderr := 0
        price_mean := 50
        price_std := 0
        cash_in_mean := 500
        cash_in_stderr := 0
        cum_cash_mean := 500
        cum_cash_stderr := 0
        cum_pos_mean := -10
        cum_pos_stderr := 0
        total_unit_stderr := some 0 } : SensitivityPeriod).cash_in_stderr =
         vstd (fun x => x) c / (fun x : ℚ => x) ((1 : ℕ) : ℚ) ∧
     ({ commodity := ⟨"OIL", [2020, 1]⟩
        date := some ⟨2020, 1, 1⟩
        hedge_units_mean := -10
        hedge_units_stderr := 0
        price_mean := 50
        price_std := 0
        cash_in_mean := 500
        cash_in_stderr := 0
        cum_cash_mean := 500
        cum_cash_stderr := 0
        cum_pos_mean := -10
        cum_pos_stderr := 0
        total_unit_stderr := some 0 } : SensitivityPeriod).cum_pos_stderr =
         vstd (fun x => x) (fun i => (fun _ : Fin 1 => (0 : ℚ)) i + h i) /
           (fun x : ℚ => x) ((1 : ℕ) : ℚ) ∧
     ({ commodity := ⟨"OIL", [2020, 1]⟩
        date := some ⟨2020, 1, 1⟩
        hedge_units_mean := -10
        hedge_units_stderr := 0
        price_mean := 50
        price_std := 0
        cash_in_mean := 500
        cash_in_stderr := 0
        cum_cash_mean := 500
        cum_cash_stderr := 0
        cum_pos_mean := -10
        cum_pos_stderr := 0
        total_unit_stderr := some 0 } : SensitivityPeriod).cum_cash_stderr =
         vstd (fun x => x) (fun i => (fun _ : Fin 1 => (0 : ℚ)) i + c i) /
           (fun x : ℚ => x) ((1 : ℕ) : ℚ) ∧
     ({ commodity := ⟨"OIL", [2020, 1]⟩
        date := some ⟨2020, 1, 1⟩
        hedge_units_mean := -10
        hedge_units_stderr := 0
        price_mean := 50
        price_std := 0
        cash_in_mean := 500
        cash_in_stderr := 0
        cum_cash_mean := 500
        cum_cash_stderr := 0
        cum_pos_mean := -10
        cum_pos_stderr := 0
        total_unit_stderr := some 0 } : SensitivityPeriod).total_unit_stderr =
         some (vstd (fun x => x) (fun i => (fun _ : Fin 1 => (0 : ℚ)) i + h i) /
           (fun x : ℚ => x) ((1 : ℕ) : ℚ)) ∧
     ({ commodity := ⟨"OIL", [2020, 1]⟩
        date := some ⟨2020, 1, 1⟩
        hedge_units_mean := -10
        hedge_units_stderr := 0
        price_mean := 50
        price_std := 0
        cash_in_mean := 500
        cash_in_stderr := 0
        cum_cash_mean := 500
        cum_cash_stderr := 0
        cum_pos_mean := -10
        cum_pos_stderr := 0
        total_unit_stderr := some 0 } : SensitivityPeriod).price_std =
         vstd (fun x => x) (fun _ : Fin 1 => (50 : ℚ))) :=
  ⟨⟨by decide, rfl, rfl, rfl, c6_witness_eval⟩,
    (c6_stderr_is_std_over_sqrt_path_count.1 (fun x => x) ⟨1 / 100, ⟨2011, 1, 1⟩⟩
      (fun _ _ => some (fun _ => (50 : ℚ)))
      (fun sk =>
        if sk.negated then some (fun _ => (95 : ℚ))
        else some (fun _ => (105 : ℚ)))
      ⟨"OIL", [2020, 1]⟩ [] (fun _ => 0) (fun _ => 0)
      (fun _ => 105) (fun _ => 95) (fun _ => 50)
      { commodity := ⟨"OIL", [2020, 1]⟩
        date := some ⟨2020, 1, 1⟩
        hedge_units_mean := -10
        hedge_units_stderr := 0
        price_mean := 50
        price_std := 0
        cash_in_mean := 500
        cash_in_stderr := 0
        cum_cash_mean := 500
        cum_cash_stderr := 0
        cum_pos_mean := -10
        cum_pos_stderr := 0
        total_unit_stderr := some 0 } []
      (by decide) rfl rfl rfl c6_witness_eval)⟩

/-! ## Claim C7: pathwise accumulation across dated buckets -/

/-- The key induction behind C7: processing any key list whose lookups all
succeed returns `.ok`, and the last dated period reports the statistics of
the pathwise running sums threaded through the loop. -/
theorem processKeys_ok_with_cum {n : ℕ} (sq : ℚ → ℚ) (ms : MarketSimulation)
    (pr : String → PriceDate → Option (Vec n)) (pv : SignedKey → Option (Vec n))
    (sPC : ℚ) (P N S : PerturbationKey → Vec n) :
    ∀ (ks : List PerturbationKey) (tu tc : Vec n),
      (∀ k ∈ ks, pv ⟨false, k⟩ = some (P k)) →
      (∀ k ∈ ks, pv ⟨true, k⟩ = some (N k)) →
      (∀ k ∈ ks, k.suffix = [] → pr k.commodity ms.observationDate = some (S k)) →
      (∀ k ∈ ks, 1 < k.suffix.length → pr k.commodity (bucketDate k) = some (S k)) →
      ∃ ps, processKeys sq ms pr pv sPC ks tu tc = .ok ps ∧
        (ks.filter (fun k => decide (1 < k.suffix.length)) = [] →
          ps.filter (fun q => q.date.isSome) = []) ∧
        (ks.filter (fun k => decide (1 < k.suffix.length)) ≠ [] →
          ∃ p, (ps.filter (fun q => q.date.isSome)).getLast? = some p ∧
            p.cum_pos_mean = vmean
              ((ks.filter (fun k => decide (1 < k.suffix.length))).foldl
                (fun acc k => fun i =>
                  acc i + -((P k i - N k i) / (2 * ms.perturbationFactor * S k i))) tu) ∧
            p.cum_pos_stderr = vstd sq
              ((ks.filter (fun k => decide (1 < k.suffix.length))).foldl
                (fun acc k => fun i =>
                  acc i + -((P k i - N k i) / (2 * ms.perturbationFactor * S k i))) tu) / sPC ∧
            p.cum_cash_mean = vmean
              ((ks.filter (fun k => decide (1 < k.suffix.length))).foldl
                (fun acc k => fun i =>
                  acc i + - -((P k i - N k i) / (2 * ms.perturbationFactor * S k i)) * S k i) tc) ∧
            p.cum_cash_stderr = vstd sq
              ((ks.filter (fun k => decide (1 < k.suffix.length))).foldl
                (fun acc k => fun i =>
                  acc i + - -((P k i - N k i) / (2 * ms.perturbationFactor * S k i)) * S k i) tc) / sPC) := by
  intro ks
  induction ks with
  | nil =>
    intro tu tc _ _ _ _
    exact ⟨[], rfl, fun _ => rfl, fun hne => absurd rfl hne⟩
  | cons k ks ih =>
    intro tu tc hp hn hs hd
    have hpk : pv ⟨false, k⟩ = some (P k) := hp k (List.mem_cons_self k ks)
    have hnk : pv ⟨true, k⟩ = some (N k) := hn k (List.mem_cons_self k ks)
    have hp' : ∀ x ∈ ks, pv ⟨false, x⟩ = some (P x) :=
      fun x hx => hp x (List.mem_cons_of_mem k hx)
    have hn' : ∀ x ∈ ks, pv ⟨true, x⟩ = some (N x) :=
      fun x hx => hn x (List.mem_cons_of_mem k hx)
    have hs' : ∀ x ∈ ks, x.suffix = [] →
        pr x.commodity ms.observationDate = some (S x) :=
      fun x hx => hs x (List.mem_cons_of_mem k hx)
    have hd' : ∀ x ∈ ks, 1 < x.suffix.length →
        pr x.commodity (bucketDate x) = some (S x) :=
      fun x hx => hd x (List.mem_cons_of_mem k hx)
    rcases Nat.lt_trichotomy k.suffix.length 1 with hlt | heq1 | hgt
    · -- the spot bucket: `commodity_name == perturbed_name`
      have hsuf : k.suffix = [] := List.length_eq_zero.mp (by omega)
      have hSk := hs k (List.mem_cons_self k ks) hsuf
      obtain ⟨ps, hps, hc0, hc1⟩ := ih tu tc hp' hn' hs' hd'
      obtain ⟨rec, hcons, hdate⟩ :
          ∃ rec, processKeys sq ms pr pv sPC (k :: ks) tu tc = .ok (rec :: ps) ∧
            rec.date = none := by
        rw [processKeys_cons_spot sq ms pr pv sPC k ks tu tc (P k) (N k) (S k)
          hsuf hpk hnk hSk, hps]
        exact ⟨_, rfl, rfl⟩
      have hkf : (k :: ks).filter (fun k => decide (1 < k.suffix.length)) =
          ks.filter (fun k => decide (1 < k.suffix.length)) := by
        rw [List.filter_cons_of_neg]
        simp [hsuf]
      have hpf : (rec :: ps).filter (fun q => q.date.isSome) =
          ps.filter (fun q => q.date.isSome) := by
        rw [List.filter_cons_of_neg]
        simp [hdate]
      refine ⟨rec :: ps, hcons, ?_, ?_⟩
      · intro hD
        rw [hkf] at hD
        rw [hpf]
        exact hc0 hD
      · intro hD
        rw [hkf] at hD ⊢
        rw [hpf]
        exact hc1 hD
    · -- a two-component name: skipped
      obtain ⟨ps, hps, hc0, hc1⟩ := ih tu tc hp' hn' hs' hd'
      have hcons : processKeys sq ms pr pv sPC (k :: ks) tu tc = .ok ps := by
        rw [processKeys_cons_skip sq ms pr pv sPC k ks tu tc heq1
          (by rw [hpk]; rfl) (by rw [hnk]; rfl)]
        exact hps
      have hkf : (k :: ks).filter (fun k => decide (1 < k.suffix.length)) =
          ks.filter (fun k => decide (1 < k.suffix.length)) := by
        rw [List.filter_cons_of_neg]
        simp [heq1]
      refine ⟨ps, hcons, ?_, ?_⟩
      · intro hD
        rw [hkf] at hD
        exact hc0 hD
      · intro hD
        rw [hkf] at hD ⊢
        exact hc1 hD
    · -- a dated bucket
      have hSk := hd k (List.mem_cons_self k ks) hgt
      obtain ⟨ps, hps, hc0, hc1⟩ := ih
        (fun i => tu i + -((P k i - N k i) / (2 * ms.perturbationFactor * S k i)))
        (fun i => tc i + - -((P k i - N k i) / (2 * ms.perturbationFactor * S k i)) * S k i)
        hp' hn' hs' hd'
      obtain ⟨rec, hcons, hdate, hcp, hcps, hcc, hccs⟩ :
          ∃ rec, processKeys sq ms pr pv sPC (k :: ks) tu tc = .ok (rec :: ps) ∧
            rec.date.isSome = true ∧
            rec.cum_pos_mean = vmean
              (fun i => tu i + -((P k i - N k i) / (2 * ms.perturbationFactor * S k i))) ∧
            rec.cum_pos_stderr = vstd sq
              (fun i => tu i + -((P k i - N k i) / (2 * ms.perturbationFactor * S k i))) / sPC ∧
            rec.cum_cash_mean = vmean
              (fun i => tc i + - -((P k i - N k i) / (2 * ms.perturbationFactor * S k i)) * S k i) ∧
            rec.cum_cash_stderr = vstd sq
              (fun i => tc i + - -((P k i - N k i) / (2 * ms.perturbationFactor * S k i)) * S k i) / sPC := by
        rw [processKeys_cons_dated sq ms pr pv sPC k ks tu tc (P k) (N k) (S k)
          hgt hpk hnk hSk, hps]
        exact ⟨_, rfl, rfl, rfl, rfl, rfl, rfl⟩
      have hkf : (k :: ks).filter (fun k => decide (1 < k.suffix.length)) =
          k :: ks.filter (fun k => decide (1 < k.suffix.length)) := by
        rw [List.filter_cons_of_pos]
        simp [hgt]
      have hpf : (rec :: ps).filter (fun q => q.date.isSome) =
          rec :: ps.filter (fun q => q.date.isSome) := by
        rw [List.filter_cons_of_pos]
        exact hdate
      refine ⟨rec :: ps, hcons, ?_, ?_⟩
      · intro hD
        rw [hkf] at hD
        exact absurd hD (List.cons_ne_nil _ _)
      · intro _
        rw [hkf, hpf]
        by_cases hD : ks.filter (fun k => decide (1 < k.suffix.length)) = []
        · rw [hD, hc0 hD]
          exact ⟨rec, rfl, hcp, hcps, hcc, hccs⟩
        · obtain ⟨p, hpl, h1, h2, h3, h4⟩ := hc1 hD
          have hne : ps.filter (fun q => q.date.isSome) ≠ [] := by
            intro h0
            rw [h0] at hpl
            simp at hpl
          obtain ⟨x, l', hxl⟩ := List.exists_cons_of_ne_nil hne
          refine ⟨p, ?_, h1, h2, h3, h4⟩
          rw [hxl, List.getLast?_cons_cons, ← hxl]
          exact hpl

/-- C7: starting from the zero accumulators of `read_results`, processing a
key list whose lookups all succeed yields periods whose chronologically last
dated entry reports cumulative position and cash statistics computed from
the elementwise (per-path) running sums of the per-bucket `hedge_units` and
`cash_in` vectors over all dated buckets — accumulation happens on the
vectors, not on their means. -/
theorem c7_cumulative_position_and_cash (sq : ℚ → ℚ) (ms : MarketSimulation)
    {n : ℕ} (pr : String → PriceDate → Option (Vec n))
    (pv : SignedKey → Option (Vec n)) (sPC : ℚ)
    (P N S : PerturbationKey → Vec n) (ks : List PerturbationKey)
    (hp : ∀ k ∈ ks, pv ⟨false, k⟩ = some (P k))
    (hn : ∀ k ∈ ks, pv ⟨true, k⟩ = some (N k))
    (hs : ∀ k ∈ ks, k.suffix = [] → pr k.commodity ms.observationDate = some (S k))
    (hd : ∀ k ∈ ks, 1 < k.suffix.length → pr k.commodity (bucketDate k) = some (S k)) :
    ∃ ps, processKeys sq ms pr pv sPC ks (fun _ => 0) (fun _ => 0) = .ok ps ∧
      (ks.filter (fun k => decide (1 < k.suffix.length)) ≠ [] →
        ∃ p, (ps.filter (fun q => q.date.isSome)).getLast? = some p ∧
          p.cum_pos_mean = vmean
            ((ks.filter (fun k => decide (1 < k.suffix.length))).foldl
              (fun acc k => fun i =>
                acc i + -((P k i - N k i) / (2 * ms.perturbationFactor * S k i)))
              (fun _ => 0)) ∧
          p.cum_pos_stderr = vstd sq
            ((ks.filter (fun k => decide (1 < k.suffix.length))).foldl
              (fun acc k => fun i =>
                acc i + -((P k i - N k i) / (2 * ms.perturbationFactor * S k i)))
              (fun _ => 0)) / sPC ∧
          p.cum_cash_mean = vmean
            ((ks.filter (fun k => decide (1 < k.suffix.length))).foldl
              (fun acc k => fun i =>
                acc i + - -((P k i - N k i) / (2 * ms.perturbationFactor * S k i)) * S k i)
              (fun _ => 0)) ∧
          p.cum_cash_stderr = vstd sq
            ((ks.filter (fun k => decide (1 < k.suffix.length))).foldl
              (fun acc k => fun i =>
                acc i + - -((P k i - N k i) / (2 * ms.perturbationFactor * S k i)) * S k i)
              (fun _ => 0)) / sPC) := by
  obtain ⟨ps, h1, -, h3⟩ := processKeys_ok_with_cum sq ms pr pv sPC P N S ks
    (fun _ => 0) (fun _ => 0) hp hn hs hd
  exact ⟨ps, h1, h3⟩

/-- C7 witness: one path, one dated bucket `OIL-2020-1`, zero initial
accumulators; the cumulative statistics are those of the single bucket's
hedge and cash vectors. -/
theorem c7_cumulative_position_and_cash_witness :
    ((∀ k ∈ [(⟨"OIL", [2020, 1]⟩ : PerturbationKey)],
        (fun sk : SignedKey =>
          if sk.negated then some (fun _ : Fin 1 => (95 : ℚ))
          else some (fun _ : Fin 1 => (105 : ℚ))) ⟨false, k⟩ =
          some (fun _ : Fin 1 => (105 : ℚ))) ∧
      (∀ k ∈ [(⟨"OIL", [2020, 1]⟩ : PerturbationKey)],
        (fun sk : SignedKey =>
          if sk.negated then some (fun _ : Fin 1 => (95 : ℚ))
          else some (fun _ : Fin 1 => (105 : ℚ))) ⟨true, k⟩ =
          some (fun _ : Fin 1 => (95 : ℚ))) ∧
      (∀ k ∈ [(⟨"OIL", [2020, 1]⟩ : PerturbationKey)], k.suffix = [] →
        (fun (_ : String) (_ : PriceDate) => some (fun _ : Fin 1 => (50 : ℚ)))
          k.commodity
          (⟨1 / 100, ⟨2011, 1, 1⟩⟩ : MarketSimulation).observationDate =
          some (fun _ : Fin 1 => (50 : ℚ))) ∧
      (∀ k ∈ [(⟨"OIL", [2020, 1]⟩ : PerturbationKey)], 1 < k.suffix.length →
        (fun (_ : String) (_ : PriceDate) => some (fun _ : Fin 1 => (50 : ℚ)))
          k.commodity (bucketDate k) = some (fun _ : Fin 1 => (50 : ℚ)))) ∧
    (∃ ps, processKeys (n := 1) (fun x => x) ⟨1 / 100, ⟨2011, 1, 1⟩⟩
        (fun _ _ => some (fun _ => (50 : ℚ)))
        (fun sk =>
          if sk.negated then some (fun _ => (95 : ℚ))
          else some (fun _ => (105 : ℚ))) 1
        [⟨"OIL", [2020, 1]⟩] (fun _ => 0) (fun _ => 0) = .ok ps ∧
      ([(⟨"OIL", [2020, 1]⟩ : PerturbationKey)].filter
          (fun k => decide (1 < k.suffix.length)) ≠ [] →
        ∃ p, (ps.filter (fun q => q.date.isSome)).getLast? = some p ∧
          p.cum_pos_mean = vmean
            (([(⟨"OIL", [2020, 1]⟩ : PerturbationKey)].filter
              (fun k => decide (1 < k.suffix.length))).foldl
              (fun acc _ => fun i : Fin 1 =>
                acc i + -((105 - 95) / (2 * ((1 : ℚ) / 100) * 50)))
              (fun _ => 0)) ∧
          p.cum_pos_stderr = vstd (fun x => x)
            (([(⟨"OIL", [2020, 1]⟩ : PerturbationKey)].filter
              (fun k => decide (1 < k.suffix.length))).foldl
              (fun acc _ => fun i : Fin 1 =>
                acc i + -((105 - 95) / (2 * ((1 : ℚ) / 100) * 50)))
              (fun _ => 0)) / 1 ∧
          p.cum_cash_mean = vmean
            (([(⟨"OIL", [2020, 1]⟩ : PerturbationKey)].filter
              (fun k => decide (1 < k.suffix.length))).foldl
              (fun acc _ => fun i : Fin 1 =>
                acc i + - -((105 - 95) / (2 * ((1 : ℚ) / 100) * 50)) * 50)
              (fun _ => 0)) ∧
          p.cum_cash_stderr = vstd (fun x => x)
            (([(⟨"OIL", [2020, 1]⟩ : PerturbationKey)].filter
              (fun k => decide (1 < k.suffix.length))).foldl
              (fun acc _ => fun i : Fin 1 =>
                acc i + - -((105 - 95) / (2 * ((1 : ℚ) / 100) * 50)) * 50)
              (fun _ => 0)) / 1)) :=
  ⟨⟨by decide, by decide, by decide, by decide⟩,
    c7_cumulative_position_and_cash (fun x => x) ⟨1 / 100, ⟨2011, 1, 1⟩⟩
      (fun _ _ => some (fun _ => (50 : ℚ)))
      (fun sk =>
        if sk.negated then some (fun _ => (95 : ℚ))
        else some (fun _ => (105 : ℚ))) 1
      (fun _ => fun _ => 105) (fun _ => fun _ => 95) (fun _ => fun _ => 50)
      [⟨"OIL", [2020, 1]⟩]
      (by decide) (by decide) (by decide) (by decide)⟩

/-! ## Claim C8: a missing simulated price aborts the aggregation -/

/-- Processing a key list that reaches a dated bucket whose simulated price
is absent raises the wrapped exception carrying that bucket's date,
whatever the accumulators are. -/
theorem processKeys_error_of_missing_dated_price {n : ℕ} (sq : ℚ → ℚ)
    (ms : MarketSimulation) (pr : String → PriceDate → Option (Vec n))
    (pv : SignedKey → Option (Vec n)) (sPC : ℚ)
    (k₀ : PerturbationKey) (ks₂ : List PerturbationKey)
    (hk : 1 < k₀.suffix.length)
    (hmiss : pr k₀.commodity (bucketDate k₀) = none) :
    ∀ (ks₁ : List PerturbationKey) (tu tc : Vec n),
      (∀ k ∈ ks₁ ++ k₀ :: ks₂,
        (pv ⟨false, k⟩).isSome ∧ (pv ⟨true, k⟩).isSome) →
      (∀ k ∈ ks₁, k.suffix = [] →
        ∃ S, pr k.commodity ms.observationDate = some S) →
      (∀ k ∈ ks₁, 1 < k.suffix.length →
        ∃ S, pr k.commodity (bucketDate k) = some S) →
      processKeys sq ms pr pv sPC (ks₁ ++ k₀ :: ks₂) tu tc =
        .error (.missingPriceForDate (bucketDate k₀)) := by
  intro ks₁
  induction ks₁ with
  | nil =>
    intro tu tc hv _ _
    obtain ⟨hV, hW⟩ := hv k₀ (by simp)
    obtain ⟨V, hV'⟩ := Option.isSome_iff_exists.mp hV
    obtain ⟨W, hW'⟩ := Option.isSome_iff_exists.mp hW
    exact processKeys_cons_dated_missing_price sq ms pr pv sPC k₀ ks₂ tu tc V W
      hk hV' hW' hmiss
  | cons a ks₁ ih =>
    intro tu tc hv hs1 hd1
    obtain ⟨hVa, hWa⟩ := hv a (by simp)
    obtain ⟨V, hV'⟩ := Option.isSome_iff_exists.mp hVa
    obtain ⟨W, hW'⟩ := Option.isSome_iff_exists.mp hWa
    have hv' : ∀ k ∈ ks₁ ++ k₀ :: ks₂,
        (pv ⟨false, k⟩).isSome ∧ (pv ⟨true, k⟩).isSome :=
      fun k hk' => hv k (by simp [hk'])
    have hs1' : ∀ k ∈ ks₁, k.suffix = [] →
        ∃ S, pr k.commodity ms.observationDate = some S :=
      fun k hk' => hs1 k (List.mem_cons_of_mem a hk')
    have hd1' : ∀ k ∈ ks₁, 1 < k.suffix.length →
        ∃ S, pr k.commodity (bucketDate k) = some S :=
      fun k hk' => hd1 k (List.mem_cons_of_mem a hk')
    rcases Nat.lt_trichotomy a.suffix.length 1 with hlt | heq1 | hgt
    · have hsuf : a.suffix = [] := List.length_eq_zero.mp (by omega)
      obtain ⟨S, hS⟩ := hs1 a (List.mem_cons_self a ks₁) hsuf
      rw [List.cons_append,
        processKeys_cons_spot sq ms pr pv sPC a (ks₁ ++ k₀ :: ks₂) tu tc V W S
          hsuf hV' hW' hS,
        ih tu tc hv' hs1' hd1']
      rfl
    · rw [List.cons_append,
        processKeys_cons_skip sq ms pr pv sPC a (ks₁ ++ k₀ :: ks₂) tu tc heq1
          hVa hWa]
      exact ih tu tc hv' hs1' hd1'
    · obtain ⟨S, hS⟩ := hd1 a (List.mem_cons_self a ks₁) hgt
      rw [List.cons_append,
        processKeys_cons_dated sq ms pr pv sPC a (ks₁ ++ k₀ :: ks₂) tu tc V W S
          hgt hV' hW' hS,
        ih _ _ hv' hs1' hd1']
      rfl

/-- C8: when the sorted key list reaches a dated bucket whose simulated
price is absent from the price store (every earlier key having resolved),
`read_results` aborts with the fatal "missing price for date" error carrying
that bucket's date; no result triple and no period — neither for that bucket
nor for any later one — is produced. -/
theorem c8_missing_price_aborts {n : ℕ} (sq : ℚ → ℚ) (cr : CallResultData n)
    (ms : MarketSimulation) (pr : String → PriceDate → Option (Vec n))
    (ks₁ ks₂ : List PerturbationKey) (k₀ : PerturbationKey)
    (hdec : sortedPerturbedNames cr.perturbedNames = ks₁ ++ k₀ :: ks₂)
    (hvals : ∀ k ∈ ks₁ ++ k₀ :: ks₂,
      (cr.perturbedValues ⟨false, k⟩).isSome ∧
        (cr.perturbedValues ⟨true, k⟩).isSome)
    (hs1 : ∀ k ∈ ks₁, k.suffix = [] →
      ∃ S, pr k.commodity ms.observationDate = some S)
    (hd1 : ∀ k ∈ ks₁, 1 < k.suffix.length →
      ∃ S, pr k.commodity (bucketDate k) = some S)
    (hk : 1 < k₀.suffix.length)
    (hmiss : pr k₀.commodity (bucketDate k₀) = none) :
    read_results sq cr ms pr = .error (.missingPriceForDate (bucketDate k₀)) := by
  simp only [read_results, hdec]
  rw [processKeys_error_of_missing_dated_price sq ms pr cr.perturbedValues
    (sq (n : ℚ)) k₀ ks₂ hk hmiss ks₁ (fun _ => 0) (fun _ => 0) hvals hs1 hd1]
  rfl

/-- C8 witness: a call result holding exactly the pair of perturbed values
for `OIL-2020-1` and an empty price store. -/
theorem c8_missing_price_aborts_witness :
    (sortedPerturbedNames
        (⟨FairValue.scalar 7,
          [⟨false, ⟨"OIL", [2020, 1]⟩⟩, ⟨true, ⟨"OIL", [2020, 1]⟩⟩],
          fun sk =>
            if sk.negated then some (fun _ : Fin 1 => (95 : ℚ))
            else some (fun _ : Fin 1 => (105 : ℚ))⟩ : CallResultData 1).perturbedNames =
        [] ++ (⟨"OIL", [2020, 1]⟩ : PerturbationKey) :: [] ∧
      (∀ k ∈ ([] : List PerturbationKey) ++ (⟨"OIL", [2020, 1]⟩ : PerturbationKey) :: [],
        ((fun sk : SignedKey =>
          if sk.negated then some (fun _ : Fin 1 => (95 : ℚ))
          else some (fun _ : Fin 1 => (105 : ℚ))) ⟨false, k⟩).isSome ∧
        ((fun sk : SignedKey =>
          if sk.negated then some (fun _ : Fin 1 => (95 : ℚ))
          else some (fun _ : Fin 1 => (105 : ℚ))) ⟨true, k⟩).isSome) ∧
      (∀ k ∈ ([] : List PerturbationKey), k.suffix = [] →
        ∃ S, (fun (_ : String) (_ : PriceDate) => (none : Option (Vec 1)))
          k.commodity
          (⟨1 / 100, ⟨2011, 1, 1⟩⟩ : MarketSimulation).observationDate = some S) ∧
      (∀ k ∈ ([] : List PerturbationKey), 1 < k.suffix.length →
        ∃ S, (fun (_ : String) (_ : PriceDate) => (none : Option (Vec 1)))
          k.commodity (bucketDate k) = some S) ∧
      1 < (⟨"OIL", [2020, 1]⟩ : PerturbationKey).suffix.length ∧
      (fun (_ : String) (_ : PriceDate) => (none : Option (Vec 1)))
        (⟨"OIL", [2020, 1]⟩ : PerturbationKey).commodity
        (bucketDate ⟨"OIL", [2020, 1]⟩) = none) ∧
    read_results (fun x => x)
        (⟨FairValue.scalar 7,
          [⟨false, ⟨"OIL", [2020, 1]⟩⟩, ⟨true, ⟨"OIL", [2020, 1]⟩⟩],
          fun sk =>
            if sk.negated then some (fun _ : Fin 1 => (95 : ℚ))
            else some (fun _ : Fin 1 => (105 : ℚ))⟩ : CallResultData 1)
        ⟨1 / 100, ⟨2011, 1, 1⟩⟩
        (fun _ _ => none) =
      .error (.missingPriceForDate (bucketDate ⟨"OIL", [2020, 1]⟩)) :=
  ⟨⟨rfl, by decide, by simp, by simp, by decide, rfl⟩,
    c8_missing_price_aborts (fun x => x)
      ⟨FairValue.scalar 7,
        [⟨false, ⟨"OIL", [2020, 1]⟩⟩, ⟨true, ⟨"OIL", [2020, 1]⟩⟩],
        fun sk =>
          if sk.negated then some (fun _ : Fin 1 => (95 : ℚ))
          else some (fun _ : Fin 1 => (105 : ℚ))⟩
      ⟨1 / 100, ⟨2011, 1, 1⟩⟩ (fun _ _ => none) [] [] ⟨"OIL", [2020, 1]⟩
      rfl (by decide) (by simp) (by simp) (by decide) rfl⟩

/-! ## Claim C10: two-component perturbation names -/

/-- C10 counterexample.  A two-component key whose negated counterpart is
absent from `perturbed_values` does raise: lines 156-157 fetch both values
before any branch is taken, so the loop dies with a `KeyError` instead of
silently omitting the key. -/
theorem c10_counterexample :
    processKeys (n := 1) (fun x => x) ⟨1 / 100, ⟨2011, 1, 1⟩⟩
        (fun _ _ => none)
        (fun sk => if sk.negated then none else some (fun _ => (1 : ℚ))) 1
        [⟨"GAS", [2020]⟩] (fun _ => 0) (fun _ => 0) =
      .error .missingPerturbedValue := by
  rfl

/-- C10 (amended): a non-negated key whose dash-split form has exactly two
components, provided both its value and its negated counterpart are present
(they are still fetched), contributes nothing: inserting it anywhere in the
processed key list leaves the outcome — periods, errors and accumulators —
exactly as if the key were absent.  It is neither a spot nor a dated bucket
and no error arises from it. -/
theorem c10_two_component_key_silently_skipped {n : ℕ} (sq : ℚ → ℚ)
    (ms : MarketSimulation) (pr : String → PriceDate → Option (Vec n))
    (pv : SignedKey → Option (Vec n)) (sPC : ℚ) (k : PerturbationKey)
    (hlen : k.suffix.length = 1)
    (hV : (pv ⟨false, k⟩).isSome) (hW : (pv ⟨true, k⟩).isSome) :
    ∀ (l₁ l₂ : List PerturbationKey) (tu tc : Vec n),
      processKeys sq ms pr pv sPC (l₁ ++ k :: l₂) tu tc =
        processKeys sq ms pr pv sPC (l₁ ++ l₂) tu tc := by
  intro l₁
  induction l₁ with
  | nil =>
    intro l₂ tu tc
    exact processKeys_cons_skip sq ms pr pv sPC k l₂ tu tc hlen hV hW
  | cons a l₁ ih =>
    intro l₂ tu tc
    rcases hVa : pv ⟨false, a⟩ with _ | V
    · rw [List.cons_append, List.cons_append,
        processKeys_cons_missing sq ms pr pv sPC a _ tu tc (Or.inl hVa),
        processKeys_cons_missing sq ms pr pv sPC a _ tu tc (Or.inl hVa)]
    · rcases hWa : pv ⟨true, a⟩ with _ | W
      · rw [List.cons_append, List.cons_append,
          processKeys_cons_missing sq ms pr pv sPC a _ tu tc (Or.inr hWa),
          processKeys_cons_missing sq ms pr pv sPC a _ tu tc (Or.inr hWa)]
      · rcases Nat.lt_trichotomy a.suffix.length 1 with hlt | heq1 | hgt
        · have hsuf : a.suffix = [] := List.length_eq_zero.mp (by omega)
          rcases hSa : pr a.commodity ms.observationDate with _ | S
          · rw [List.cons_append, List.cons_append,
              processKeys_cons_spot_missing_price sq ms pr pv sPC a _ tu tc V W
                hsuf hVa hWa hSa,
              processKeys_cons_spot_missing_price sq ms pr pv sPC a _ tu tc V W
                hsuf hVa hWa hSa]
          · rw [List.cons_append, List.cons_append,
              processKeys_cons_spot sq ms pr pv sPC a _ tu tc V W S
                hsuf hVa hWa hSa,
              processKeys_cons_spot sq ms pr pv sPC a _ tu tc V W S
                hsuf hVa hWa hSa,
              ih]
        · rw [List.cons_append, List.cons_append,
            processKeys_cons_skip sq ms pr pv sPC a _ tu tc heq1
              (by rw [hVa]; rfl) (by rw [hWa]; rfl),
            processKeys_cons_skip sq ms pr pv sPC a _ tu tc heq1
              (by rw [hVa]; rfl) (by rw [hWa]; rfl),
            ih]
        · rcases hSa : pr a.commodity (bucketDate a) with _ | S
          · rw [List.cons_append, List.cons_append,
              processKeys_cons_dated_missing_price sq ms pr pv sPC a _ tu tc V W
                hgt hVa hWa hSa,
              processKeys_cons_dated_missing_price sq ms pr pv sPC a _ tu tc V W
                hgt hVa hWa hSa]
          · rw [List.cons_append, List.cons_append,
              processKeys_cons_dated sq ms pr pv sPC a _ tu tc V W S
                hgt hVa hWa hSa,
              processKeys_cons_dated sq ms pr pv sPC a _ tu tc V W S
                hgt hVa hWa hSa,
              ih]

/-- C10 witness: the key `GAS-2020` with both values present is dropped from
a singleton list without any other effect. -/
theorem c10_two_component_key_silently_skipped_witness :
    ((⟨"GAS", [2020]⟩ : PerturbationKey).suffix.length = 1 ∧
      ((fun sk : SignedKey =>
        if sk.negated then some (fun _ : Fin 1 => (2 : ℚ))
        else some (fun _ : Fin 1 => (3 : ℚ))) ⟨false, ⟨"GAS", [2020]⟩⟩).isSome = true ∧
      ((fun sk : SignedKey =>
        if sk.negated then some (fun _ : Fin 1 => (2 : ℚ))
        else some (fun _ : Fin 1 => (3 : ℚ))) ⟨true, ⟨"GAS", [2020]⟩⟩).isSome = true) ∧
    processKeys (n := 1) (fun x => x) ⟨1 / 100, ⟨2011, 1, 1⟩⟩ (fun _ _ => none)
        (fun sk =>
          if sk.negated then some (fun _ => (2 : ℚ))
          else some (fun _ => (3 : ℚ))) 1
        ([] ++ (⟨"GAS", [2020]⟩ : PerturbationKey) :: []) (fun _ => 0) (fun _ => 0) =
      processKeys (n := 1) (fun x => x) ⟨1 / 100, ⟨2011, 1, 1⟩⟩ (fun _ _ => none)
        (fun sk =>
          if sk.negated then some (fun _ => (2 : ℚ))
          else some (fun _ => (3 : ℚ))) 1
        ([] ++ []) (fun _ => 0) (fun _ => 0) :=
  ⟨⟨by decide, rfl, rfl⟩,
    c10_two_component_key_silently_skipped (fun x => x) ⟨1 / 100, ⟨2011, 1, 1⟩⟩
      (fun _ _ => none)
      (fun sk =>
        if sk.negated then some (fun _ => (2 : ℚ))
        else some (fun _ => (3 : ℚ))) 1
      ⟨"GAS", [2020]⟩ (by decide) rfl rfl [] [] (fun _ => 0) (fun _ => 0)⟩

end CalcAndPlot
